import Mathlib

/-!
# Verification of the lite-nvr / ffmpeg-bus media pipeline

Shallow embedding of the parts of the `ffmpeg-bus` engine and the `lite-nvr`
façade that the specification's claims are about:

* `src/ffmpeg-bus/src/output.rs` — the output muxers (`AvOutput`,
  `AvOutputStreamWriter`) and their DTS-monotonicity fix-up;
* `src/ffmpeg-bus/src/encoder.rs` — the encoder worker (PTS synthesis,
  key-frame hints, the bounded input hand-off queue);
* `src/ffmpeg-bus/src/bus.rs` — the Bus command loop (`inner_command_handler`,
  two-phase input start, builders);
* `src/ffmpeg-bus/src/bsf.rs` — the Annex-B detector;
* the AVCC→Annex-B converter used by `lite-nvr/src/media/pipe.rs`.

Machine integers (`i64`) are modelled by `Int`; the programs never rely on
64-bit wrap-around in the modelled paths.  Byte slices are modelled by
`List Nat` whose elements play the role of `u8` values.  Fallible Rust
functions returning `anyhow::Result` are modelled with `Except String`.
External, effectful collaborators (FFmpeg contexts, channels, spawned tasks)
are modelled by oracles in an environment record and by an explicit event
trace where the claims are about ordering or replies.
-/

/- ------------------------------------------------------------------ -/
/- Timestamps and time-base rescaling (FFmpeg `av_rescale_q`, used by
   `Packet::rescale_ts`).  A time base is a rational `num/den` with positive
   numerator and denominator.  `av_rescale_rnd` with the default
   `AV_ROUND_NEAR_INF` rounding (round to nearest, halfway away from zero)
   computes `(a*b + c/2) / c` after reducing to a non-negative `a`. -/

/-- A time base `num/den`, as FFmpeg's `AVRational`. -/
abbrev TimeBase := Int × Int

/-- FFmpeg's `av_rescale_rnd(a, b, c, AV_ROUND_NEAR_INF)` for positive `b`, `c`:
round `a*b/c` to the nearest integer, halfway cases away from zero. -/
def avRescaleRnd (a b c : Int) : Int :=
  if a < 0 then -(((-a) * b + c / 2) / c) else (a * b + c / 2) / c

/-- FFmpeg's `av_rescale_q(a, bq, cq)`: rescale a timestamp from time base
`bq` into time base `cq`. -/
def avRescaleQ (a : Int) (bq cq : TimeBase) : Int :=
  avRescaleRnd a (bq.1 * cq.2) (cq.1 * bq.2)

/- ------------------------------------------------------------------ -/
/- `src/ffmpeg-bus/src/packet.rs`: `RawPacket` — the fields read by the
   output muxers: stream index, PTS, DTS and the time base the timestamps
   are expressed in.  (`AV_NOPTS_VALUE` is `Option.none`.) -/

/-- The timestamp-relevant view of `RawPacket`. -/
structure RawPacketM where
  index : Nat
  pts : Option Int
  dts : Option Int
  timeBase : TimeBase
deriving DecidableEq, Repr

/-- A packet as handed to `Packet::write` / `write_interleaved`: the stream
field has been rewritten to the output stream index and the timestamps have
been rescaled and clamped. -/
structure WrittenPacket where
  stream : Nat
  pts : Option Int
  dts : Option Int
deriving DecidableEq, Repr

/-- The DTS value the muxer bookkeeping uses for a written packet
(`p.dts().unwrap_or(0)` after the fix-up). -/
def WrittenPacket.dtsVal (w : WrittenPacket) : Int :=
  w.dts.getD 0

/-- Embeds `output.rs` lines 144–157 and 251–263: enforce monotonically increasing
DTS before the write.  Takes the per-output-stream `last_dts`, the (already
rescaled) PTS and DTS of the packet, and returns the adjusted PTS, the
adjusted DTS and the value recorded into `last_dts`.

```rust
let dts = p.dts().unwrap_or(0);
let new_dts = match last { Some(last) if dts <= last => last + 1, _ => dts };
if new_dts != dts {
    p.set_dts(Some(new_dts));
    if p.pts().map(|x| x < new_dts).unwrap_or(true) { p.set_pts(Some(new_dts)); }
}
``` -/
def enforceMonotonicDts (last : Option Int) (pts dts : Option Int) :
    Option Int × Option Int × Int :=
  let dtsV := dts.getD 0
  let newDts :=
    match last with
    | some l => if dtsV ≤ l then l + 1 else dtsV
    | none => dtsV
  if newDts ≠ dtsV then
    let pts' := if (pts.map (fun x => decide (x < newDts))).getD true then some newDts else pts
    (pts', some newDts, newDts)
  else
    (pts, dts, newDts)

/-- Embeds `AvOutput::write_packet` lines 122–137: ensure PTS/DTS are both set,
filling the missing one from the other (both 0 when both are unset). -/
def normalizeTimestamps (pts dts : Option Int) : Int × Int :=
  match pts, dts with
  | none, none => (0, 0)
  | none, some d => (d, d)
  | some p, none => (p, p)
  | some p, some d => (p, d)

/-- Embeds `AvOutput` (`output.rs` lines 18–29).  The FFmpeg `Output` context is
represented by the data `write_packet` reads from it: the time base of each
output stream (`inner.stream(out_idx).unwrap().time_base()`), modelled as a
total function because the source unwraps. -/
structure AvOutputM where
  outputStreamIndex : List (Nat × Nat)
  outputTimeBase : Nat → TimeBase
  interleaved : Bool
  haveWrittenHeader : Bool
  haveWrittenTrailer : Bool
  lastDts : Nat → Option Int

/-- Embeds `AvOutput::write_packet` (`output.rs` lines 106–165).  Returns the updated
muxer state and the packet as passed to `Packet::write`.  The
`write_header` call is represented by setting the flag; the byte-position
reset (`set_position(-1)`) has no timestamp effect and is omitted from
`WrittenPacket`. -/
def AvOutputM.writePacket (s : AvOutputM) (inputStreamIndex : Nat) (pkt : RawPacketM) :
    Except String (AvOutputM × WrittenPacket) :=
  match (s.outputStreamIndex.lookup inputStreamIndex : Option Nat) with
  | none => .error ("stream not found: " ++ toString inputStreamIndex)
  | some outIdx =>
    let s := { s with haveWrittenHeader := true }
    let timeBase := pkt.timeBase
    let nrm := normalizeTimestamps pkt.pts pkt.dts
    let outTimeBase := s.outputTimeBase outIdx
    let pts1 := avRescaleQ nrm.1 timeBase outTimeBase
    let dts1 := avRescaleQ nrm.2 timeBase outTimeBase
    let r := enforceMonotonicDts (s.lastDts outIdx) (some pts1) (some dts1)
    let s := { s with lastDts := fun j => if j = outIdx then some r.2.2 else s.lastDts j }
    .ok (s, { stream := outIdx, pts := r.1, dts := r.2.1 })

/-- Writing a sequence of `(input_stream_index, packet)` pairs through the
same `AvOutput`, as the mux tasks in `bus.rs` do: a `write_packet` error is
logged and the loop continues (`bus.rs` lines 263–273). -/
def AvOutputM.writeAll : AvOutputM → List (Nat × RawPacketM) → AvOutputM × List WrittenPacket
  | s, [] => (s, [])
  | s, (i, p) :: rest =>
    match s.writePacket i p with
    | .ok (s', w) =>
      let (s'', ws) := s'.writeAll rest
      (s'', w :: ws)
    | .error _ => s.writeAll rest

/-- Embeds `AvOutputStreamWriter` (`output.rs` lines 218–227): writer half of the
split in-memory muxer.  `outTimeBase` is `inner.stream(0).time_base()`. -/
structure AvOutputStreamWriterM where
  inputStreamIndex : Option Nat
  haveWrittenHeader : Bool
  haveWrittenTrailer : Bool
  outTimeBase : TimeBase
  lastDts : Option Int
deriving DecidableEq, Repr

/-- Embeds `AvOutputStreamWriter::write_packet` (`output.rs` lines 230–294).  Returns
the updated writer and `some w` when the packet was passed to
`Packet::write` (the in-memory IO callback — and hence the message channel —
is only reached through that write), `none` when the packet was skipped
because its stream index does not match. -/
def AvOutputStreamWriterM.writePacket (s : AvOutputStreamWriterM) (pkt : RawPacketM) :
    Except String (AvOutputStreamWriterM × Option WrittenPacket) :=
  match s.inputStreamIndex with
  | none => .error "no stream added to output"
  | some idx =>
    if pkt.index ≠ idx then
      .ok (s, none)
    else
      let s := { s with haveWrittenHeader := true }
      let timeBase := pkt.timeBase
      let pts1 := pkt.pts.map (fun v => avRescaleQ v timeBase s.outTimeBase)
      let dts1 := pkt.dts.map (fun v => avRescaleQ v timeBase s.outTimeBase)
      let r := enforceMonotonicDts s.lastDts pts1 dts1
      let s := { s with lastDts := some r.2.2 }
      .ok (s, some { stream := 0, pts := r.1, dts := r.2.1 })

/-- Writing a sequence of packets through the same `AvOutputStreamWriter`
(the mux tasks in `bus.rs` lines 441–468 and 497–527; errors are logged and
the loop continues). -/
def AvOutputStreamWriterM.writeAll :
    AvOutputStreamWriterM → List RawPacketM → AvOutputStreamWriterM × List WrittenPacket
  | s, [] => (s, [])
  | s, p :: rest =>
    match s.writePacket p with
    | .ok (s', some w) =>
      let (s'', ws) := s'.writeAll rest
      (s'', w :: ws)
    | .ok (s', none) => s'.writeAll rest
    | .error _ => s.writeAll rest

example :
    enforceMonotonicDts (some 10) (some 5) (some 5) = (some 11, some 11, 11) := by decide

example :
    enforceMonotonicDts none (some 5) (some 5) = (some 5, some 5, 5) := by decide

example :
    enforceMonotonicDts (some 3) none none = (some 4, some 4, 4) := by decide

/- ------------------------------------------------------------------ -/
/- Properties of the DTS fix-up. -/

/-- The DTS recorded into `last_dts` equals the DTS of the written packet. -/
theorem enforce_dts_eq_newDts (last : Option Int) (pts dts : Option Int) :
    (enforceMonotonicDts last pts dts).2.1.getD 0 = (enforceMonotonicDts last pts dts).2.2 := by
  cases last with
  | none => simp [enforceMonotonicDts]
  | some l =>
    by_cases h : dts.getD 0 ≤ l
    · have hne : (l + 1 : Int) ≠ dts.getD 0 := by omega
      simp [enforceMonotonicDts, h, hne]
    · simp [enforceMonotonicDts, h]

/-- The recorded DTS is strictly greater than the previous `last_dts`. -/
theorem enforce_dts_gt_last (l : Int) (pts dts : Option Int) :
    l < (enforceMonotonicDts (some l) pts dts).2.2 := by
  by_cases h : dts.getD 0 ≤ l
  · have hne : (l + 1 : Int) ≠ dts.getD 0 := by omega
    simp [enforceMonotonicDts, h, hne]
  · push_neg at h
    have hne : ¬ ((dts.getD 0 : Int) ≠ dts.getD 0) := by omega
    simp [enforceMonotonicDts, show ¬ dts.getD 0 ≤ l by omega, hne, h]

/-- The clamp case: when the incoming DTS is `≤ last_dts`, the written DTS is
`last_dts + 1` and the PTS is raised to it when it would be smaller. -/
theorem enforce_clamp (l : Int) (pts dts : Option Int) (h : dts.getD 0 ≤ l) :
    (enforceMonotonicDts (some l) pts dts).2.1 = some (l + 1) ∧
    (enforceMonotonicDts (some l) pts dts).2.2 = l + 1 ∧
    (∀ p, pts = some p → p < l + 1 → (enforceMonotonicDts (some l) pts dts).1 = some (l + 1)) := by
  have hne : (l + 1 : Int) ≠ dts.getD 0 := by omega
  refine ⟨?_, ?_, ?_⟩
  · simp [enforceMonotonicDts, h, hne]
  · simp [enforceMonotonicDts, h, hne]
  · rintro p rfl hlt
    simp [enforceMonotonicDts, h, hne, hlt]

/-- One successful `AvOutput::write_packet`: the written packet goes to the
mapped output stream, the recorded `last_dts` equals the written DTS, other
output streams' `last_dts` entries are untouched, and the written DTS is
strictly above the previous `last_dts` of that output stream. -/
theorem avOutput_writePacket_ok (s : AvOutputM) (i : Nat) (p : RawPacketM) (o : Nat)
    (hlk : (s.outputStreamIndex.lookup i : Option Nat) = some o) :
    ∃ s' w, s.writePacket i p = .ok (s', w) ∧ w.stream = o ∧
      s'.lastDts o = some w.dtsVal ∧
      (∀ j, j ≠ o → s'.lastDts j = s.lastDts j) ∧
      (∀ l, s.lastDts o = some l → l < w.dtsVal) := by
  unfold AvOutputM.writePacket
  rw [hlk]
  refine ⟨_, _, rfl, rfl, ?_, ?_, ?_⟩
  · show (if o = o then _ else _) = _
    rw [if_pos rfl, WrittenPacket.dtsVal]
    exact congrArg some (enforce_dts_eq_newDts _ _ _).symm
  · intro j hj
    show (if j = o then _ else _) = _
    rw [if_neg hj]
  · intro l hl
    show l < WrittenPacket.dtsVal _
    rw [WrittenPacket.dtsVal]
    show l < (enforceMonotonicDts _ _ _).2.1.getD 0
    rw [enforce_dts_eq_newDts, hl]
    exact enforce_dts_gt_last l _ _

/-- Embedded `AvOutput::write_packet` fails (before touching any state) when the input
stream index was never added. -/
theorem avOutput_writePacket_err (s : AvOutputM) (i : Nat) (p : RawPacketM)
    (hlk : (s.outputStreamIndex.lookup i : Option Nat) = none) :
    s.writePacket i p = .error ("stream not found: " ++ toString i) := by
  unfold AvOutputM.writePacket
  rw [hlk]

/-- The DTS-chain predicate: starting from a `last_dts` bookmark, each written
packet's DTS is strictly above the bookmark, which then moves to it. -/
def dtsChain : Option Int → List WrittenPacket → Prop
  | _, [] => True
  | last, w :: ws => (∀ l, last = some l → l < w.dtsVal) ∧ dtsChain (some w.dtsVal) ws

theorem dtsChain_chain' (last : Option Int) (ws : List WrittenPacket)
    (h : dtsChain last ws) : List.Chain' (fun a b => a.dtsVal ≤ b.dtsVal) ws := by
  induction ws generalizing last with
  | nil => simp
  | cons w tail ih =>
    obtain ⟨-, htail⟩ := h
    cases tail with
    | nil => simp
    | cons w2 t2 =>
      refine List.Chain'.cons ?_ (ih (some w.dtsVal) htail)
      exact le_of_lt (htail.1 _ rfl)

/-- Across any sequence of writes through one `AvOutput`, the packets written
to one output stream have their DTS values forming a chain above the initial
`last_dts` bookmark of that output stream. -/
theorem avOutput_writeAll_dtsChain (pkts : List (Nat × RawPacketM)) (s : AvOutputM) (o : Nat) :
    dtsChain (s.lastDts o) (((s.writeAll pkts).2.filter (fun w => w.stream == o))) := by
  induction pkts generalizing s with
  | nil => simp [AvOutputM.writeAll, dtsChain]
  | cons ip rest ih =>
    obtain ⟨i, p⟩ := ip
    show dtsChain _ ((AvOutputM.writeAll s ((i, p) :: rest)).2.filter _)
    rcases hlk : (s.outputStreamIndex.lookup i : Option Nat) with _ | o'
    · rw [AvOutputM.writeAll, avOutput_writePacket_err s i p hlk]
      exact ih s
    · obtain ⟨s', w, hok, hstream, hself, hother, hgt⟩ := avOutput_writePacket_ok s i p o' hlk
      rw [AvOutputM.writeAll, hok]
      by_cases ho : o' = o
      · subst ho
        rw [List.filter_cons_of_pos (by simpa using hstream)]
        refine ⟨hgt, ?_⟩
        have h2 := ih s'
        rwa [hself] at h2
      · rw [List.filter_cons_of_neg (by simp [hstream, ho])]
        have h2 := ih s'
        rwa [hother o (fun h => ho h.symm)] at h2

/-- One successful, matching `AvOutputStreamWriter::write_packet`. -/
theorem writer_writePacket_ok (s : AvOutputStreamWriterM) (p : RawPacketM) (idx : Nat)
    (hidx : s.inputStreamIndex = some idx) (hmatch : p.index = idx) :
    ∃ s' w, s.writePacket p = .ok (s', some w) ∧
      s'.lastDts = some w.dtsVal ∧
      (∀ l, s.lastDts = some l → l < w.dtsVal) := by
  unfold AvOutputStreamWriterM.writePacket
  rw [hidx]
  simp only [hmatch, ne_eq, not_true_eq_false, Bool.false_eq_true, if_false, ite_false]
  refine ⟨_, _, rfl, ?_, ?_⟩
  · show (some _ : Option Int) = _
    rw [WrittenPacket.dtsVal]
    exact congrArg some (enforce_dts_eq_newDts _ _ _).symm
  · intro l hl
    show l < WrittenPacket.dtsVal _
    rw [WrittenPacket.dtsVal]
    show l < (enforceMonotonicDts _ _ _).2.1.getD 0
    rw [enforce_dts_eq_newDts, hl]
    exact enforce_dts_gt_last l _ _

/-- Across any sequence of writes through one `AvOutputStreamWriter`, the
actually-written packets' DTS values form a chain above the initial
`last_dts` bookmark. -/
theorem writer_writeAll_dtsChain (pkts : List RawPacketM) (s : AvOutputStreamWriterM) :
    dtsChain s.lastDts (s.writeAll pkts).2 := by
  induction pkts generalizing s with
  | nil => simp [AvOutputStreamWriterM.writeAll, dtsChain]
  | cons p rest ih =>
    show dtsChain _ (AvOutputStreamWriterM.writeAll s (p :: rest)).2
    rcases hidx : s.inputStreamIndex with _ | idx
    · rw [AvOutputStreamWriterM.writeAll]
      rw [show s.writePacket p = .error "no stream added to output" by
        unfold AvOutputStreamWriterM.writePacket; rw [hidx]]
      exact ih s
    · by_cases hmatch : p.index = idx
      · obtain ⟨s', w, hok, hself, hgt⟩ := writer_writePacket_ok s p idx hidx hmatch
        rw [AvOutputStreamWriterM.writeAll, hok]
        refine ⟨hgt, ?_⟩
        have h2 := ih s'
        rwa [hself] at h2
      · rw [AvOutputStreamWriterM.writeAll]
        rw [show s.writePacket p = .ok (s, none) by
          unfold AvOutputStreamWriterM.writePacket; rw [hidx]; simp [hmatch]]
        exact ih s

/- ------------------------------------------------------------------ -/
/- Claim theorems for the output muxers. -/

/-- Claim C1: For every output muxer (`AvOutput::write_packet` and the split
`AvOutputStreamWriter::write_packet`) and every sequence of packets written
to the same output stream: after rescaling into the output time base, if the
packet's DTS is ≤ the last written DTS then its DTS is set to `last_dts + 1`
and its PTS is raised to that new DTS when it would otherwise be smaller;
consequently every written packet's DTS is ≥ the previous packet's DTS on
that output stream. -/
theorem c1_dts_monotonic :
    (∀ (s : AvOutputM) (i : Nat) (p : RawPacketM) (o : Nat) (l : Int),
      (s.outputStreamIndex.lookup i : Option Nat) = some o →
      s.lastDts o = some l →
      avRescaleQ (normalizeTimestamps p.pts p.dts).2 p.timeBase (s.outputTimeBase o) ≤ l →
      ∃ s' w, s.writePacket i p = .ok (s', w) ∧
        w.dts = some (l + 1) ∧ s'.lastDts o = some (l + 1) ∧
        (avRescaleQ (normalizeTimestamps p.pts p.dts).1 p.timeBase (s.outputTimeBase o) < l + 1 →
          w.pts = some (l + 1))) ∧
    (∀ (s : AvOutputM) (pkts : List (Nat × RawPacketM)) (o : Nat),
      List.Chain' (fun a b => a.dtsVal ≤ b.dtsVal)
        ((s.writeAll pkts).2.filter (fun w => w.stream == o))) ∧
    (∀ (s : AvOutputStreamWriterM) (p : RawPacketM) (idx : Nat) (l : Int),
      s.inputStreamIndex = some idx → p.index = idx →
      s.lastDts = some l →
      (p.dts.map (fun v => avRescaleQ v p.timeBase s.outTimeBase)).getD 0 ≤ l →
      ∃ s' w, s.writePacket p = .ok (s', some w) ∧
        w.dts = some (l + 1) ∧ s'.lastDts = some (l + 1) ∧
        (∀ q, p.pts.map (fun v => avRescaleQ v p.timeBase s.outTimeBase) = some q →
          q < l + 1 → w.pts = some (l + 1))) ∧
    (∀ (s : AvOutputStreamWriterM) (pkts : List RawPacketM),
      List.Chain' (fun a b => a.dtsVal ≤ b.dtsVal) (s.writeAll pkts).2) := by
  refine ⟨?_, ?_, ?_, ?_⟩
  · intro s i p o l hlk hl hle
    simp only [AvOutputM.writePacket, hlk]
    rw [hl]
    have hc := enforce_clamp l
      (some (avRescaleQ (normalizeTimestamps p.pts p.dts).1 p.timeBase (s.outputTimeBase o)))
      (some (avRescaleQ (normalizeTimestamps p.pts p.dts).2 p.timeBase (s.outputTimeBase o)))
      (by simpa using hle)
    refine ⟨_, _, rfl, hc.1, ?_, ?_⟩
    · show (if o = o then some _ else _) = _
      rw [if_pos rfl, hc.2.1]
    · intro hq
      exact hc.2.2 _ rfl hq
  · intro s pkts o
    exact dtsChain_chain' _ _ (avOutput_writeAll_dtsChain pkts s o)
  · intro s p idx l hidx hmatch hl hle
    simp only [AvOutputStreamWriterM.writePacket, hidx, hmatch, ne_eq, not_true_eq_false,
      Bool.false_eq_true, if_false, ite_false]
    rw [hl]
    have hc := enforce_clamp l
      (p.pts.map (fun v => avRescaleQ v p.timeBase s.outTimeBase))
      (p.dts.map (fun v => avRescaleQ v p.timeBase s.outTimeBase))
      hle
    refine ⟨_, _, rfl, hc.1, ?_, ?_⟩
    · rw [hc.2.1]
    · intro q hq hlt
      exact hc.2.2 q hq hlt
  · intro s pkts
    exact dtsChain_chain' _ _ (writer_writeAll_dtsChain pkts s)

/-- Concrete `AvOutput` with one mapped stream, `last_dts = 10` everywhere. -/
def c1OutS : AvOutputM :=
  { outputStreamIndex := [(0, 0)], outputTimeBase := fun _ => (1, 1000),
    interleaved := false, haveWrittenHeader := false, haveWrittenTrailer := false,
    lastDts := fun _ => some 10 }

/-- Concrete packet with PTS = DTS = 5 in the same time base as the output. -/
def c1Pkt : RawPacketM :=
  { index := 0, pts := some 5, dts := some 5, timeBase := (1, 1000) }

/-- Concrete split writer with `last_dts = 10`. -/
def c1WrS : AvOutputStreamWriterM :=
  { inputStreamIndex := some 0, haveWrittenHeader := false, haveWrittenTrailer := false,
    outTimeBase := (1, 1000), lastDts := some 10 }

theorem c1_dts_monotonic_witness :
    (∃ s' w, c1OutS.writePacket 0 c1Pkt = .ok (s', w) ∧
      w.dts = some (10 + 1) ∧ s'.lastDts 0 = some (10 + 1) ∧
      (avRescaleQ (normalizeTimestamps c1Pkt.pts c1Pkt.dts).1 c1Pkt.timeBase
          (c1OutS.outputTimeBase 0) < 10 + 1 →
        w.pts = some (10 + 1))) ∧
    (∃ s' w, c1WrS.writePacket c1Pkt = .ok (s', some w) ∧
      w.dts = some (10 + 1) ∧ s'.lastDts = some (10 + 1) ∧
      (∀ q, c1Pkt.pts.map (fun v => avRescaleQ v c1Pkt.timeBase c1WrS.outTimeBase) = some q →
        q < 10 + 1 → w.pts = some (10 + 1))) :=
  ⟨c1_dts_monotonic.1 c1OutS 0 c1Pkt 0 10 (by decide) (by decide) (by decide),
   c1_dts_monotonic.2.2.1 c1WrS c1Pkt 0 10 (by decide) (by decide) (by decide) (by decide)⟩

/-- Claim C10: `AvOutputStreamWriter::write_packet` returns an error without
writing anything when no stream has been added; and a packet whose stream
index differs from the registered input stream index yields `Ok(())` with the
entire muxer state unchanged and nothing passed to the inner write (hence
nothing on the message channel). -/
theorem c10_writer_guards :
    (∀ (s : AvOutputStreamWriterM) (p : RawPacketM),
      s.inputStreamIndex = none → s.writePacket p = .error "no stream added to output") ∧
    (∀ (s : AvOutputStreamWriterM) (p : RawPacketM) (idx : Nat),
      s.inputStreamIndex = some idx → p.index ≠ idx →
      s.writePacket p = .ok (s, none)) := by
  constructor
  · intro s p h
    unfold AvOutputStreamWriterM.writePacket
    rw [h]
  · intro s p idx h hne
    unfold AvOutputStreamWriterM.writePacket
    rw [h]
    simp [hne]

/-- Writer with no stream added. -/
def c10NoStream : AvOutputStreamWriterM :=
  { inputStreamIndex := none, haveWrittenHeader := false, haveWrittenTrailer := false,
    outTimeBase := (1, 1000), lastDts := none }

/-- Writer registered on input stream 0. -/
def c10Wr : AvOutputStreamWriterM :=
  { inputStreamIndex := some 0, haveWrittenHeader := false, haveWrittenTrailer := false,
    outTimeBase := (1, 1000), lastDts := some 7 }

/-- A packet on stream index 1 (mismatching `c10Wr`). -/
def c10Pkt : RawPacketM :=
  { index := 1, pts := some 3, dts := some 3, timeBase := (1, 1000) }

theorem c10_writer_guards_witness :
    c10NoStream.writePacket c10Pkt = .error "no stream added to output" ∧
    c10Wr.writePacket c10Pkt = .ok (c10Wr, none) :=
  ⟨c10_writer_guards.1 c10NoStream c10Pkt (by decide),
   c10_writer_guards.2 c10Wr c10Pkt 0 (by decide) (by decide)⟩

/- ------------------------------------------------------------------ -/
/- `src/ffmpeg-bus/src/encoder.rs`: the encoder worker. -/

/-- Pixel formats, as far as the encoder settings distinguish them. -/
inductive PixelFormatM
  | yuv420p
  | rgb24
  | other
deriving DecidableEq, Repr

/-- Embeds `encoder.rs` lines 74–81: encoder `Settings`. -/
structure Settings where
  width : Nat
  height : Nat
  keyframeInterval : Nat
  codec : Option String
  pixelFormat : PixelFormatM
deriving DecidableEq, Repr

/-- Embeds `Settings::default` (`encoder.rs` lines 83–93). -/
def Settings.default : Settings :=
  { width := 1920, height := 1080, keyframeInterval := 25,
    codec := some "libx264", pixelFormat := .yuv420p }

/-- The frame as submitted to the underlying codec: its PTS and whether the
frame was marked with `picture::Type::I` (the key-frame hint). -/
structure SubmittedFrame where
  pts : Option Int
  keyHint : Bool
deriving DecidableEq, Repr

/-- Embeds `EncoderType::send_frame`, video arm (`encoder.rs` lines 19–41):

```rust
if frame_index % 5 == 0 { frame.set_kind(picture::Type::I); }
if frame.pts().is_none() { frame.set_pts(Some(frame_index)); }
encoder.send_frame(frame)?;
```

The key-frame interval is the literal `5`; the `Settings` record is not
consulted here. -/
def encoderTypeSendFrame (framePts : Option Int) (frameIndex : Int) : SubmittedFrame :=
  let keyHint := frameIndex % 5 == 0
  let pts :=
    match framePts with
    | none => some frameIndex
    | some p => some p
  { pts := pts, keyHint := keyHint }

/-- The mutable encoder state `Encoder::send_frame` touches: the running
frame index (`encoder.rs` line 103, incremented at line 241). -/
structure EncoderStateM where
  frameIndex : Int
deriving DecidableEq, Repr

/-- Embeds `Encoder::send_frame` (`encoder.rs` lines 205–243).  When the inbound
pixel format differs from the encoder's, a scaler converts the frame and the
converted frame inherits the source PTS (`converted.set_pts(f.pts())`, line
226), so the submitted PTS is the frame's PTS either way; the frame index is
incremented after each submission. -/
def encoderSendFrame (st : EncoderStateM) (framePts : Option Int) :
    EncoderStateM × SubmittedFrame :=
  let submitted := encoderTypeSendFrame framePts st.frameIndex
  ({ frameIndex := st.frameIndex + 1 }, submitted)

/-- Running the encoder over a sequence of inbound frames (each given by its
PTS), as the blocking encode loop does with successive `send_frame` calls. -/
def encoderRun : EncoderStateM → List (Option Int) → List SubmittedFrame
  | _, [] => []
  | st, f :: fs =>
    let (st', r) := encoderSendFrame st f
    r :: encoderRun st' fs

/-- The PTS values synthesised for the PTS-less frames of a run, in order. -/
def synthesizedPtsList : EncoderStateM → List (Option Int) → List Int
  | _, [] => []
  | st, f :: fs =>
    let (st', r) := encoderSendFrame st f
    match f with
    | none => r.pts.getD 0 :: synthesizedPtsList st' fs
    | some _ => synthesizedPtsList st' fs

/-- The PTS policy **as the spec words it** (for comparison with the code): a
frame with a valid PTS is rescaled from the stream's time base into the
encoder's time base; a frame without PTS gets the synthesised frame index. -/
def encoderSendFramePtsSpec (framePts : Option Int) (frameIndex : Int)
    (streamTimeBase encoderTimeBase : TimeBase) : Option Int :=
  match framePts with
  | some p => some (avRescaleQ p streamTimeBase encoderTimeBase)
  | none => some frameIndex

example : encoderRun ⟨0⟩ [none, none, some 9, none] =
    [⟨some 0, true⟩, ⟨some 1, false⟩, ⟨some 9, false⟩, ⟨some 3, false⟩] := by decide

/-- Every synthesised PTS in a run is at least the starting frame index. -/
theorem synthesizedPtsList_lower (fs : List (Option Int)) (st : EncoderStateM) :
    ∀ x ∈ synthesizedPtsList st fs, st.frameIndex ≤ x := by
  induction fs generalizing st with
  | nil => simp [synthesizedPtsList]
  | cons f fs ih =>
    intro x hx
    cases f with
    | none =>
      simp only [synthesizedPtsList, encoderSendFrame, encoderTypeSendFrame,
        List.mem_cons] at hx
      rcases hx with rfl | hx
      · simp
      · have h2 := ih ⟨st.frameIndex + 1⟩ x hx
        simp only at h2
        omega
    | some p =>
      simp only [synthesizedPtsList, encoderSendFrame] at hx
      have h2 := ih ⟨st.frameIndex + 1⟩ x hx
      simp only at h2
      omega

/-- The synthesised PTS values of a run are strictly increasing. -/
theorem synthesizedPtsList_strictChain (fs : List (Option Int)) (st : EncoderStateM) :
    List.Chain' (fun a b => a < b) (synthesizedPtsList st fs) := by
  induction fs generalizing st with
  | nil => simp [synthesizedPtsList]
  | cons f fs ih =>
    cases f with
    | none =>
      simp only [synthesizedPtsList, encoderSendFrame, encoderTypeSendFrame]
      rcases hrest : synthesizedPtsList ⟨st.frameIndex + 1⟩ fs with _ | ⟨y, ys⟩
      · simp
      · refine List.Chain'.cons ?_ (hrest ▸ ih ⟨st.frameIndex + 1⟩)
        have hy : st.frameIndex + 1 ≤ y := by
          have := synthesizedPtsList_lower fs ⟨st.frameIndex + 1⟩ y (by rw [hrest]; simp)
          simpa using this
        simp only [Option.getD_some]
        omega
    | some p =>
      simp only [synthesizedPtsList, encoderSendFrame]
      exact ih ⟨st.frameIndex + 1⟩

/-- Claim C4, counterexample: A frame arriving with a valid PTS is *not*
rescaled: at PTS 7 with stream time base 1/1000 and encoder time base
1/90000 the code submits PTS 7 unchanged, while the claimed rescale would
give 630. -/
theorem c4_counterexample :
    (encoderSendFrame ⟨0⟩ (some 7)).2.pts = some 7 ∧
    encoderSendFramePtsSpec (some 7) 0 (1, 1000) (1, 90000) = some 630 ∧
    (7 : Int) ≠ 630 := by decide

/-- Claim C4, amended: A frame with a valid PTS is submitted with that PTS
unchanged (no rescale happens in the encoder worker); a frame without PTS is
given the current frame index as PTS; the frame index increases by one on
every submission, so across any run the PTS values synthesised for PTS-less
frames are strictly increasing. -/
theorem c4_pts_policy :
    (∀ (st : EncoderStateM) (p : Int),
      (encoderSendFrame st (some p)).2.pts = some p) ∧
    (∀ (st : EncoderStateM),
      (encoderSendFrame st none).2.pts = some st.frameIndex) ∧
    (∀ (st : EncoderStateM) (f : Option Int),
      (encoderSendFrame st f).1.frameIndex = st.frameIndex + 1) ∧
    (∀ (st : EncoderStateM) (fs : List (Option Int)),
      List.Chain' (fun a b => a < b) (synthesizedPtsList st fs)) :=
  ⟨fun _ _ => rfl, fun _ => rfl, fun _ _ => rfl,
   fun st fs => synthesizedPtsList_strictChain fs st⟩

/-- Claim C5, counterexample: The key-frame hint interval is not taken from the
configuration: with the default `Settings` (whose `keyframe_interval` is 25,
not the claimed default 5), the frame at index 5 is marked although 5 is not
a multiple of the configured interval. -/
theorem c5_counterexample :
    (encoderSendFrame ⟨5⟩ none).2.keyHint = true ∧
    Settings.default.keyframeInterval = 25 ∧
    ¬ ((5 : Int) % (Settings.default.keyframeInterval : Int) = 0) := by decide

/-- Claim C5, amended: The key-frame hint is set exactly when the frame index
is a multiple of the hard-coded constant 5; the `Settings` record (whose
`keyframe_interval` defaults to 25) is not consulted by `send_frame`. -/
theorem c5_keyframe_every_fifth :
    (∀ (st : EncoderStateM) (f : Option Int),
      (encoderSendFrame st f).2.keyHint = (st.frameIndex % 5 == 0)) ∧
    (∀ (st : EncoderStateM) (fs : List (Option Int)) (k : Nat) (r : SubmittedFrame),
      (encoderRun st fs).get? k = some r →
      r.keyHint = ((st.frameIndex + (k : Int)) % 5 == 0)) ∧
    Settings.default.keyframeInterval = 25 := by
  refine ⟨fun _ _ => rfl, ?_, rfl⟩
  intro st fs
  induction fs generalizing st with
  | nil => intro k r h; simp [encoderRun] at h
  | cons f fs ih =>
    intro k r h
    cases k with
    | zero =>
      simp only [encoderRun, encoderSendFrame, List.get?_cons_zero, Option.some.injEq] at h
      subst h
      simp [encoderTypeSendFrame]
    | succ k =>
      simp only [encoderRun, encoderSendFrame, List.get?_cons_succ] at h
      have h2 := ih ⟨st.frameIndex + 1⟩ k r h
      simp only at h2
      rw [h2]
      congr 1
      push_cast
      ring_nf

/- ------------------------------------------------------------------ -/
/- The encoder input hand-off queue (`EncoderTask::start`,
   `encoder.rs` lines 289–341). -/

/-- Embeds `RawFrameCmd` (frames identified by their PTS for the model). -/
inductive RawFrameCmdM
  | data (framePts : Option Int)
  | eof
deriving DecidableEq, Repr

/-- Embeds `FRAME_QUEUE_BOUND` (`encoder.rs` line 297). -/
def FRAME_QUEUE_BOUND : Nat := 128

/-- Embeds `DROP_LOG_INTERVAL` (`encoder.rs` line 299). -/
def DROP_LOG_INTERVAL : Nat := 120

/-- The bounded `std::sync::mpsc::sync_channel` between the async receiver
and the blocking encode loop, together with the drop counter. -/
structure EncQueue where
  queue : List RawFrameCmdM
  dropped : Nat
deriving DecidableEq, Repr

/-- One iteration of the async receiver loop (`encoder.rs` lines 312–335):
`EOF` is sent with the blocking `tx.send` (modelled as always enqueued);
data frames use `tx.try_send` and are dropped when the queue is full, with
the drop counter advanced and a debug log emitted when
`dropped % DROP_LOG_INTERVAL == 1`.  Returns the new state and whether the
throttled debug log fired. -/
def encQueuePush (st : EncQueue) (cmd : RawFrameCmdM) : EncQueue × Bool :=
  match cmd with
  | .eof => ({ st with queue := st.queue ++ [RawFrameCmdM.eof] }, false)
  | .data p =>
    if st.queue.length < FRAME_QUEUE_BOUND then
      ({ st with queue := st.queue ++ [RawFrameCmdM.data p] }, false)
    else
      let d := st.dropped + 1
      ({ st with dropped := d }, d % DROP_LOG_INTERVAL == 1)

/-- Feeding a whole command sequence through the receiver loop. -/
def encQueueRun (st : EncQueue) : List RawFrameCmdM → EncQueue
  | [] => st
  | c :: cs => encQueueRun (encQueuePush st c).1 cs

/-- Claim C6: The encoder hand-off queue (depth 128): a non-EOF frame arriving
while the queue is full is dropped with the counter advanced and a throttled
debug log; EOF is always enqueued (blocking send) and never dropped.  Over
any run, every command is either enqueued or counted as dropped, and every
EOF survives into the queue. -/
theorem c6_encoder_queue_policy :
    (∀ (st : EncQueue),
      encQueuePush st .eof = ({ st with queue := st.queue ++ [RawFrameCmdM.eof] }, false)) ∧
    (∀ (st : EncQueue) (p : Option Int), st.queue.length < FRAME_QUEUE_BOUND →
      encQueuePush st (.data p) =
        ({ st with queue := st.queue ++ [RawFrameCmdM.data p] }, false)) ∧
    (∀ (st : EncQueue) (p : Option Int), ¬ st.queue.length < FRAME_QUEUE_BOUND →
      encQueuePush st (.data p) =
        ({ st with dropped := st.dropped + 1 }, (st.dropped + 1) % DROP_LOG_INTERVAL == 1)) ∧
    (∀ (st : EncQueue) (cmds : List RawFrameCmdM),
      (encQueueRun st cmds).queue.length + (encQueueRun st cmds).dropped =
        st.queue.length + st.dropped + cmds.length) ∧
    (∀ (st : EncQueue) (cmds : List RawFrameCmdM),
      (encQueueRun st cmds).queue.count RawFrameCmdM.eof =
        st.queue.count RawFrameCmdM.eof + cmds.count RawFrameCmdM.eof) := by
  refine ⟨fun _ => rfl, ?_, ?_, ?_, ?_⟩
  · intro st p h
    simp [encQueuePush, h]
  · intro st p h
    simp [encQueuePush, h]
  · intro st cmds
    induction cmds generalizing st with
    | nil => simp [encQueueRun]
    | cons c cs ih =>
      rcases c with p | _
      · by_cases h : st.queue.length < FRAME_QUEUE_BOUND
        · rw [encQueueRun, show (encQueuePush st (.data p)).1 =
              { st with queue := st.queue ++ [RawFrameCmdM.data p] } by simp [encQueuePush, h]]
          rw [ih]
          simp
          omega
        · rw [encQueueRun, show (encQueuePush st (.data p)).1 =
              { st with dropped := st.dropped + 1 } by simp [encQueuePush, h]]
          rw [ih]
          simp
          omega
      · rw [encQueueRun, show (encQueuePush st .eof).1 =
            { st with queue := st.queue ++ [RawFrameCmdM.eof] } by rfl]
        rw [ih]
        simp
        omega
  · intro st cmds
    induction cmds generalizing st with
    | nil => simp [encQueueRun]
    | cons c cs ih =>
      rcases c with p | _
      · by_cases h : st.queue.length < FRAME_QUEUE_BOUND
        · rw [encQueueRun, show (encQueuePush st (.data p)).1 =
              { st with queue := st.queue ++ [RawFrameCmdM.data p] } by simp [encQueuePush, h]]
          rw [ih]
          simp [List.count_append, List.count_cons, List.count_singleton]
        · rw [encQueueRun, show (encQueuePush st (.data p)).1 =
              { st with dropped := st.dropped + 1 } by simp [encQueuePush, h]]
          rw [ih]
          simp [List.count_cons]
      · rw [encQueueRun, show (encQueuePush st .eof).1 =
            { st with queue := st.queue ++ [RawFrameCmdM.eof] } by rfl]
        rw [ih]
        simp [List.count_append, List.count_cons]
        omega

/-- A full queue (128 entries) with 7 drops already counted. -/
def c6FullQueue : EncQueue :=
  { queue := List.replicate 128 (RawFrameCmdM.data none), dropped := 7 }

theorem c6_encoder_queue_policy_witness :
    encQueuePush ⟨[], 0⟩ (.data (some 1)) =
      ({ queue := [RawFrameCmdM.data (some 1)], dropped := 0 }, false) ∧
    encQueuePush c6FullQueue (.data (some 2)) =
      ({ c6FullQueue with dropped := 7 + 1 }, (7 + 1) % DROP_LOG_INTERVAL == 1) :=
  ⟨c6_encoder_queue_policy.2.1 ⟨[], 0⟩ (some 1) (by decide),
   c6_encoder_queue_policy.2.2.1 c6FullQueue (some 2)
     (by simp [c6FullQueue, FRAME_QUEUE_BOUND])⟩

theorem c5_keyframe_every_fifth_witness :
    (⟨some 5, true⟩ : SubmittedFrame).keyHint = ((0 + ((5 : Nat) : Int)) % 5 == 0) :=
  c5_keyframe_every_fifth.2.1 ⟨0⟩ [none, none, none, none, none, none] 5 ⟨some 5, true⟩
    (by decide)

/- ------------------------------------------------------------------ -/
/- `src/ffmpeg-bus/src/bus.rs`: the Bus controller. -/

/-- Stream medium (`AvStream::is_video` / `is_audio`). -/
inductive MediumM
  | video
  | audio
  | other
deriving DecidableEq, Repr

/-- Codec identities, as far as the controller distinguishes them. -/
inductive CodecIdM
  | rawvideo
  | wrappedAvframe
  | h264
  | hevc
  | aac
  | otherCodec
deriving DecidableEq, Repr

/-- Embeds `AvStream`, restricted to what the controller reads: index, medium and
codec id from the codec parameters. -/
structure AvStreamM where
  index : Nat
  medium : MediumM
  codec : CodecIdM
deriving DecidableEq, Repr

def AvStreamM.is_video (s : AvStreamM) : Bool := s.medium == .video

def AvStreamM.is_audio (s : AvStreamM) : Bool := s.medium == .audio

/-- Embeds `InputConfig` (`bus.rs` lines 880–884). -/
inductive InputConfigM
  | net (url : String)
  | file (path : String)
  | device (display format : String)
deriving DecidableEq, Repr

/-- Embeds `OutputAvType` (`bus.rs` lines 886–890). -/
inductive OutputAvTypeM
  | video
  | audio
deriving DecidableEq, Repr

/-- Embeds `EncodeConfig` (`bus.rs` lines 931–946). -/
structure EncodeConfigM where
  codec : String
  width : Option Nat
  height : Option Nat
  bitrate : Option Nat
  preset : Option String
  pixelFormat : Option String
deriving DecidableEq, Repr

/-- Embeds `OutputDest` (`bus.rs` lines 915–929). -/
inductive OutputDestM
  | net (url : String) (format : Option String)
  | file (path : String)
  | raw
  | mux (format : String)
  | encoded
deriving DecidableEq, Repr

/-- Embeds `OutputConfig` (`bus.rs` lines 892–897). -/
structure OutputConfigM where
  id : String
  dest : OutputDestM
  avType : OutputAvTypeM
  encode : Option EncodeConfigM
deriving DecidableEq, Repr

/-- Embeds `BusState` (`bus.rs` lines 839–847).  Worker handles carry no data the
handler reads besides their existence, so `input_task` is its presence and
the task maps are their key lists. -/
structure BusStateM where
  inputConfig : Option InputConfigM
  inputOptions : Option (List (String × String))
  outputConfig : List (String × OutputConfigM)
  inputTask : Bool
  inputStreams : List AvStreamM
  decoderTasks : List Nat
  encoderTasks : List Nat
deriving DecidableEq, Repr

/-- Embeds `BusState::new` (`bus.rs` lines 849–861). -/
def BusStateM.new : BusStateM :=
  { inputConfig := none, inputOptions := none, outputConfig := [],
    inputTask := false, inputStreams := [], decoderTasks := [], encoderTasks := [] }

/-- Externally observable actions of one command-handler execution, in
program order: subscriptions to the broadcast channels, the start of the
input reading loop (`AvInputTask::start`, which spawns the blocking reader),
and the sends on the command's one-shot reply channel. -/
inductive BusEvent
  | subInput
  | subDecoder (i : Nat)
  | subEncoder (i : Nat)
  | startReading
  | replyOk
  | replyErr (msg : String)
deriving DecidableEq, Repr

/-- Subscription events (registrations of a receiver on an upstream
broadcast channel). -/
def BusEvent.isSubscribe : BusEvent → Bool
  | .subInput => true
  | .subDecoder _ => true
  | .subEncoder _ => true
  | _ => false

/-- Reply events (sends on the command's one-shot reply channel). -/
def BusEvent.isReply : BusEvent → Bool
  | .replyOk => true
  | .replyErr _ => true
  | _ => false

/-- Oracles for the fallible external calls the handler makes (FFmpeg opens
and codec construction).  `.ok`/`.error` decide how the corresponding call
resolves in a given execution. -/
structure BusEnv where
  openInput : Except String (List AvStreamM)
  decoderNew : Except String Unit
  encoderNew : Except String Unit
  avOutputNew : Except String Unit
  avOutputAddStream : Except String Unit
  avOutputStreamNew : Except String Unit
  avOutputStreamAddStream : Except String Unit

/-- Embeds `Bus::try_encoder` (`bus.rs` lines 191–225).  The source returns
`anyhow::Result<bool>` but never an error. -/
def tryEncoder (inputStream : AvStreamM) (output : OutputConfigM) : Bool :=
  let inputCodec := inputStream.codec
  if output.dest matches .raw then false
  else if inputCodec == .rawvideo || inputCodec == .wrappedAvframe then true
  else if output.dest matches .encoded then true
  else
    let muxNeedsEncode :=
      match output.dest with
      | .mux format =>
        match format with
        | "h264" => inputCodec != .h264
        | "hevc" | "h265" => inputCodec != .hevc
        | _ => false
      | _ => false
    if muxNeedsEncode then true
    else output.encode.isSome

/-- Embeds `Bus::try_decoder` (`bus.rs` lines 171–189). -/
def tryDecoder (inputStream : AvStreamM) (output : OutputConfigM) : Bool :=
  let inputCodec := inputStream.codec
  if inputCodec == .rawvideo then false
  else
    match output.dest with
    | .raw => true
    | .file _ => false
    | .mux _ => inputCodec == .wrappedAvframe || tryEncoder inputStream output
    | .net _ _ => true
    | .encoded => true

/-- Embeds `Bus::prepare_input_task` (`bus.rs` lines 755–785): open the input
(oracle), push the discovered streams, create the `AvInputTask` (broadcast
channel ready) — but do not start reading. -/
def prepareInputTask (st : BusStateM) (env : BusEnv) : Except String BusStateM :=
  match st.inputConfig with
  | none => .error "input config is not set"
  | some _ =>
    match env.openInput with
    | .error e => .error e
    | .ok streams =>
      .ok { st with inputStreams := st.inputStreams ++ streams, inputTask := true }

/-- Embeds `Bus::start_decoder_task` (`bus.rs` lines 723–750).  Returns the new
state, the events (subscriptions) and the result; on error the state is the
one before the call (the source only inserts into `decoder_tasks` after all
fallible steps). -/
def startDecoderTask (st : BusStateM) (env : BusEnv) (i : Nat) :
    BusStateM × List BusEvent × Except String Unit :=
  match st.inputStreams.find? (fun s => s.index == i) with
  | none => (st, [], .error "stream not found")
  | some s =>
    if st.decoderTasks.contains i then (st, [], .ok ())
    else if s.codec == .rawvideo then (st, [], .ok ())
    else if !st.inputTask then (st, [], .error "input task not found")
    else
      match env.decoderNew with
      | .error e => (st, [.subInput], .error e)
      | .ok _ => ({ st with decoderTasks := st.decoderTasks ++ [i] }, [.subInput], .ok ())

/-- Embeds `Bus::start_encoder_task` (`bus.rs` lines 626–721).  For `RAWVIDEO`
input a packet→frame converter subscribes to the input task; otherwise the
encoder subscribes to the decoder task of the stream.  In both arms the
subscription precedes `Encoder::new`. -/
def startEncoderTask (st : BusStateM) (env : BusEnv) (i : Nat)
    (_encode : Option EncodeConfigM) : BusStateM × List BusEvent × Except String Unit :=
  match st.inputStreams.find? (fun s => s.index == i) with
  | none => (st, [], .error "stream not found")
  | some s =>
    if st.encoderTasks.contains i then (st, [], .ok ())
    else if s.codec == .rawvideo then
      if !st.inputTask then (st, [], .error "input task not found")
      else
        match env.encoderNew with
        | .error e => (st, [.subInput], .error e)
        | .ok _ => ({ st with encoderTasks := st.encoderTasks ++ [i] }, [.subInput], .ok ())
    else
      if !st.decoderTasks.contains i then (st, [], .error "decoder task not found")
      else
        match env.encoderNew with
        | .error e => (st, [.subDecoder i], .error e)
        | .ok _ => ({ st with encoderTasks := st.encoderTasks ++ [i] }, [.subDecoder i], .ok ())

/-- Embeds `Bus::create_mux_to_file` (`bus.rs` lines 228–291): subscribe to the
input task, find the target stream, build the `AvOutput`, add the stream,
spawn the mux task. -/
def createMuxToFile (st : BusStateM) (env : BusEnv) (i : Nat) :
    List BusEvent × Except String Unit :=
  if !st.inputTask then ([], .error "input task not found")
  else
    match st.inputStreams.find? (fun s => s.index == i) with
    | none => ([.subInput], .error "no matching stream in input")
    | some _ =>
      match env.avOutputNew with
      | .error e => ([.subInput], .error e)
      | .ok _ =>
        match env.avOutputAddStream with
        | .error e => ([.subInput], .error e)
        | .ok _ => ([.subInput], .ok ())

/-- Embeds `Bus::create_mux_to_net` (`bus.rs` lines 295–378): same step structure
as the file muxer (the RTSP options are built without any external call). -/
def createMuxToNet (st : BusStateM) (env : BusEnv) (i : Nat) :
    List BusEvent × Except String Unit :=
  createMuxToFile st env i

/-- Embeds `Bus::create_encoded_output_stream` (`bus.rs` lines 380–404): find the
stream, subscribe to the encoder task. -/
def createEncodedOutputStream (st : BusStateM) (i : Nat) :
    List BusEvent × Except String Unit :=
  match st.inputStreams.find? (fun s => s.index == i) with
  | none => ([], .error "stream not found")
  | some _ =>
    if !st.encoderTasks.contains i then ([], .error "encoder task not found")
    else ([.subEncoder i], .ok ())

/-- Embeds `Bus::create_mux_output_stream_from_encoder` (`bus.rs` lines 408–474):
subscribe to the encoder task, find the input stream, map the format to a
codec id (`h264`/`hevc`/`h265` only), build the in-memory `AvOutputStream`,
add the stream, split and spawn the writer task. -/
def createMuxFromEncoder (st : BusStateM) (env : BusEnv) (format : String) (i : Nat) :
    List BusEvent × Except String Unit :=
  if !st.encoderTasks.contains i then ([], .error "encoder task not found")
  else
    match st.inputStreams.find? (fun s => s.index == i) with
    | none => ([.subEncoder i], .error "no matching stream in input")
    | some _ =>
      if format == "h264" || format == "hevc" || format == "h265" then
        match env.avOutputStreamNew with
        | .error e => ([.subEncoder i], .error e)
        | .ok _ =>
          match env.avOutputStreamAddStream with
          | .error e => ([.subEncoder i], .error e)
          | .ok _ => ([.subEncoder i], .ok ())
      else
        ([.subEncoder i], .error ("unsupported mux format for encoder output: " ++ format))

/-- Embeds `Bus::create_mux_output_stream` (`bus.rs` lines 476–533): subscribe to
the input task, find the target stream, build the in-memory
`AvOutputStream`, add the stream, split and spawn the writer task. -/
def createMuxOutputStream (st : BusStateM) (env : BusEnv) (_format : String) (i : Nat) :
    List BusEvent × Except String Unit :=
  if !st.inputTask then ([], .error "input task not found")
  else
    match st.inputStreams.find? (fun s => s.index == i) with
    | none => ([.subInput], .error "no matching stream in input")
    | some _ =>
      match env.avOutputStreamNew with
      | .error e => ([.subInput], .error e)
      | .ok _ =>
        match env.avOutputStreamAddStream with
        | .error e => ([.subInput], .error e)
        | .ok _ => ([.subInput], .ok ())

/-- Embeds `Bus::create_decoder_raw_output_stream` (`bus.rs` lines 535–567): find
the stream, subscribe to the decoder task. -/
def createDecoderRawOutputStream (st : BusStateM) (i : Nat) :
    List BusEvent × Except String Unit :=
  match st.inputStreams.find? (fun s => s.index == i) with
  | none => ([], .error "stream not found")
  | some _ =>
    match st.decoderTasks.contains i with
    | false => ([], .error "decoder task not found")
    | true => ([.subDecoder i], .ok ())

/-- The builder dispatch in the `AddOutput` arm (`bus.rs` lines 119–145). -/
def buildOutput (st : BusStateM) (env : BusEnv) (dest : OutputDestM) (i : Nat)
    (needEncoder : Bool) : List BusEvent × Except String Unit :=
  match dest with
  | .raw => createDecoderRawOutputStream st i
  | .file _ => createMuxToFile st env i
  | .net _ _ => createMuxToNet st env i
  | .mux format =>
    if needEncoder then createMuxFromEncoder st env format i
    else createMuxOutputStream st env format i
  | .encoded => createEncodedOutputStream st i

/-- Phase 1 of the two-phase start in the `AddOutput` arm (`bus.rs` lines
85–98): when no input task is running but an input config exists, prepare
the input task (open, enumerate streams, allocate the broadcast channel)
without starting the read loop.  Returns the state and whether the start of
reading was deferred to phase 2. -/
def addOutputPrepPhase (st : BusStateM) (env : BusEnv) : Except String (BusStateM × Bool) :=
  if !st.inputTask && st.inputConfig.isSome then
    match prepareInputTask st env with
    | .error e => .error e
    | .ok st' => .ok (st', true)
  else .ok (st, false)

/-- Whether a stream matches the output's medium (`bus.rs` lines 100–107). -/
def avTypeMatches (t : OutputAvTypeM) (s : AvStreamM) : Bool :=
  match t with
  | .video => s.is_video
  | .audio => s.is_audio

/-- The `AddOutput` arm of `Bus::inner_command_handler` (`bus.rs` lines
78–165).  Returns the state after the command, the trace of externally
observable events in program order, and the handler's own
`anyhow::Result` (which the loop merely logs).  Note that on the
"stream not found" path and on `start_decoder_task` / `start_encoder_task`
failures the source propagates with `?` *without* sending on the reply
channel — the trace contains no reply event there. -/
def handleAddOutput (st₀ : BusStateM) (env : BusEnv) (output : OutputConfigM) :
    BusStateM × List BusEvent × Except String Unit :=
  if (st₀.outputConfig.lookup output.id).isSome then
    (st₀, [.replyErr "output already exists"], .error "output already exists")
  else
    match addOutputPrepPhase st₀ env with
    | .error e => (st₀, [.replyErr e], .error e)
    | .ok (st1, deferred) =>
      match st1.inputStreams.find? (fun s => avTypeMatches output.avType s) with
      | none => (st1, [], .error "stream not found")
      | some inputStream =>
        let i := inputStream.index
        let dRes :=
          if tryDecoder inputStream output then startDecoderTask st1 env i
          else (st1, [], .ok ())
        match dRes.2.2 with
        | .error e => (dRes.1, dRes.2.1, .error e)
        | .ok _ =>
          let eRes :=
            if tryEncoder inputStream output then
              startEncoderTask dRes.1 env i output.encode
            else (dRes.1, [], .ok ())
          match eRes.2.2 with
          | .error e => (eRes.1, dRes.2.1 ++ eRes.2.1, .error e)
          | .ok _ =>
            let bRes := buildOutput eRes.1 env output.dest i (tryEncoder inputStream output)
            let evStart : List BusEvent := if deferred then [.startReading] else []
            match bRes.2 with
            | .ok _ =>
              ({ eRes.1 with outputConfig := eRes.1.outputConfig ++ [(output.id, output)] },
                dRes.2.1 ++ eRes.2.1 ++ bRes.1 ++ evStart ++ [.replyOk], .ok ())
            | .error e =>
              (eRes.1, dRes.2.1 ++ eRes.2.1 ++ bRes.1 ++ evStart ++ [.replyErr e], .error e)

/-- Embeds `Bus::add_input_internal` (`bus.rs` lines 569–586): fail on duplicate
input config; otherwise record it and, if outputs already exist and no input
task runs, prepare the input task and begin reading immediately. -/
def addInputInternal (st : BusStateM) (env : BusEnv) (input : InputConfigM)
    (options : Option (List (String × String))) :
    BusStateM × List BusEvent × Except String Unit :=
  if st.inputConfig.isSome then (st, [], .error "input already exists")
  else
    let st := { st with inputConfig := some input, inputOptions := options }
    if !st.outputConfig.isEmpty && !st.inputTask then
      match prepareInputTask st env with
      | .error e => (st, [], .error e)
      | .ok st' => (st', [.startReading], .ok ())
    else (st, [], .ok ())

/-- The `AddInput` arm of `Bus::inner_command_handler` (`bus.rs` lines
59–67): the result of `add_input_internal` — success or error alike — is
sent on the reply channel. -/
def handleAddInput (st : BusStateM) (env : BusEnv) (input : InputConfigM)
    (options : Option (List (String × String))) :
    BusStateM × List BusEvent × Except String Unit :=
  let r := addInputInternal st env input options
  (r.1,
   r.2.1 ++ [match r.2.2 with | .ok _ => BusEvent.replyOk | .error e => BusEvent.replyErr e],
   .ok ())

/-- The `RemoveInput` arm of `Bus::inner_command_handler` (`bus.rs` lines
68–77): stop and drop the input task, clear the config, reply `Ok`. -/
def handleRemoveInput (st : BusStateM) :
    BusStateM × List BusEvent × Except String Unit :=
  ({ st with inputTask := false, inputConfig := none }, [.replyOk], .ok ())

example :
    (handleAddInput BusStateM.new
      ⟨.ok [⟨0, .video, .h264⟩], .ok (), .ok (), .ok (), .ok (), .ok (), .ok ()⟩
      (.file "t.mp4") none).2.1 = [.replyOk] := by decide

example :
    (handleAddOutput
      { BusStateM.new with inputConfig := some (.file "t.mp4") }
      ⟨.ok [⟨0, .video, .h264⟩], .ok (), .ok (), .ok (), .ok (), .ok (), .ok ()⟩
      { id := "o1", dest := .file "out.mp4", avType := .video, encode := none }).2.1 =
    [.subInput, .startReading, .replyOk] := by decide

/- ------------------------------------------------------------------ -/
/- Trace lemmas for the AddOutput arm. -/

/-- All events of `start_decoder_task` are input subscriptions. -/
theorem startDecoderTask_events (st : BusStateM) (env : BusEnv) (i : Nat) :
    ∀ e ∈ (startDecoderTask st env i).2.1, e = BusEvent.subInput := by
  intro e he
  unfold startDecoderTask at he
  repeat' split at he
  all_goals simp_all

/-- All events of `start_encoder_task` are subscriptions. -/
theorem startEncoderTask_events (st : BusStateM) (env : BusEnv) (i : Nat)
    (enc : Option EncodeConfigM) :
    ∀ e ∈ (startEncoderTask st env i enc).2.1, e.isSubscribe = true := by
  intro e he
  unfold startEncoderTask at he
  repeat' split at he
  all_goals simp_all [BusEvent.isSubscribe]

/-- All events of the output builders are subscriptions. -/
theorem buildOutput_events (st : BusStateM) (env : BusEnv) (dest : OutputDestM) (i : Nat)
    (ne : Bool) :
    ∀ e ∈ (buildOutput st env dest i ne).1, e.isSubscribe = true := by
  intro e he
  unfold buildOutput createDecoderRawOutputStream createMuxToNet
    createMuxFromEncoder createMuxOutputStream createEncodedOutputStream at he
  unfold createMuxToFile at he
  repeat' split at he
  all_goals simp_all [BusEvent.isSubscribe]

/-- A successful builder has subscribed to its upstream channel: its event
list is non-empty. -/
theorem buildOutput_ok_subscribed (st : BusStateM) (env : BusEnv) (dest : OutputDestM)
    (i : Nat) (ne : Bool) (evs : List BusEvent)
    (h : buildOutput st env dest i ne = (evs, .ok ())) : evs ≠ [] := by
  unfold buildOutput createDecoderRawOutputStream createMuxToNet
    createMuxFromEncoder createMuxOutputStream createEncodedOutputStream at h
  unfold createMuxToFile at h
  repeat' split at h
  all_goals try simp_all
  all_goals (rintro rfl; simp at h)

/-- Under the two-phase premise, a successful phase 1 defers the reading. -/
theorem addOutputPrepPhase_deferred (st : BusStateM) (env : BusEnv)
    (hTask : st.inputTask = false) (hCfg : st.inputConfig.isSome = true) :
    ∀ st1 d, addOutputPrepPhase st env = .ok (st1, d) → d = true := by
  intro st1 d h
  unfold addOutputPrepPhase at h
  rw [hTask] at h
  simp only [hCfg, Bool.not_false, Bool.true_and, if_true] at h
  split at h
  · exact absurd h (by simp)
  · simp_all

/-- Claim C2: When an `AddOutput` command triggers creation of the input task
(no input task yet, an input config exists), the input task's `start` (which
spawns the blocking reader) is invoked only after the new output's
subscription to its upstream channel has been registered: in the handler's
event trace of a successful `AddOutput`, a subscription precedes the
`startReading` event and no subscription follows it — so the reader (which
publishes only after `startReading`) cannot publish before the subscription
exists. -/
theorem c2_two_phase_start (st : BusStateM) (env : BusEnv) (output : OutputConfigM)
    (hTask : st.inputTask = false) (hCfg : st.inputConfig.isSome = true)
    (hOk : BusEvent.replyOk ∈ (handleAddOutput st env output).2.1) :
    ∃ pre post,
      (handleAddOutput st env output).2.1 = pre ++ BusEvent.startReading :: post ∧
      (∃ e ∈ pre, e.isSubscribe = true) ∧
      (∀ e ∈ post, e.isSubscribe = false) := by
  rcases hdup : (st.outputConfig.lookup output.id).isSome with _ | _
  case true =>
    have htr : (handleAddOutput st env output).2.1 = [.replyErr "output already exists"] := by
      unfold handleAddOutput
      simp [hdup]
    rw [htr] at hOk
    simp at hOk
  case false =>
  rcases hp : addOutputPrepPhase st env with e | ⟨st1, deferred⟩
  case error =>
    have htr : (handleAddOutput st env output).2.1 = [.replyErr e] := by
      unfold handleAddOutput
      simp [hdup, hp]
    rw [htr] at hOk
    simp at hOk
  case ok =>
  obtain rfl : deferred = true :=
    addOutputPrepPhase_deferred st env hTask hCfg st1 deferred hp
  rcases hf : st1.inputStreams.find? (fun s => avTypeMatches output.avType s) with _ | ins
  case none =>
    have htr : (handleAddOutput st env output).2.1 = [] := by
      unfold handleAddOutput
      simp [hdup, hp, hf]
    rw [htr] at hOk
    simp at hOk
  case some =>
  rcases hd : (if tryDecoder ins output then startDecoderTask st1 env ins.index
      else (st1, [], Except.ok ())) with ⟨st2, evD, rD⟩
  have hevD : ∀ e ∈ evD, e.isSubscribe = true := by
    rcases htd : tryDecoder ins output with _ | _
    · rw [if_neg (by simp [htd])] at hd
      obtain ⟨-, h2, -⟩ : st1 = st2 ∧ [] = evD ∧ Except.ok () = rD := by
        simpa [Prod.ext_iff] using hd
      simp [← h2]
    · rw [if_pos (by simp [htd])] at hd
      intro e he
      have h2 := startDecoderTask_events st1 env ins.index e (by rw [hd]; exact he)
      simp [h2, BusEvent.isSubscribe]
  rcases rD with e | u
  case error =>
    have htr : (handleAddOutput st env output).2.1 = evD := by
      unfold handleAddOutput
      simp [hdup, hp, hf, hd]
    rw [htr] at hOk
    have h2 := hevD _ hOk
    simp [BusEvent.isSubscribe] at h2
  case ok =>
  rcases he : (if tryEncoder ins output then startEncoderTask st2 env ins.index output.encode
      else (st2, [], Except.ok ())) with ⟨st3, evE, rE⟩
  have hevE : ∀ e ∈ evE, e.isSubscribe = true := by
    rcases hte : tryEncoder ins output with _ | _
    · rw [if_neg (by simp [hte])] at he
      obtain ⟨-, h2, -⟩ : st2 = st3 ∧ [] = evE ∧ Except.ok () = rE := by
        simpa [Prod.ext_iff] using he
      simp [← h2]
    · rw [if_pos (by simp [hte])] at he
      intro e hee
      exact startEncoderTask_events st2 env ins.index output.encode e (by rw [he]; exact hee)
  rcases rE with e | u
  case error =>
    have htr : (handleAddOutput st env output).2.1 = evD ++ evE := by
      unfold handleAddOutput
      simp [hdup, hp, hf, hd, he]
    rw [htr] at hOk
    rcases List.mem_append.mp hOk with h2 | h2
    · have h3 := hevD _ h2
      simp [BusEvent.isSubscribe] at h3
    · have h3 := hevE _ h2
      simp [BusEvent.isSubscribe] at h3
  case ok =>
  rcases hb : buildOutput st3 env output.dest ins.index (tryEncoder ins output) with ⟨evB, rB⟩
  have hevB : ∀ e ∈ evB, e.isSubscribe = true := by
    intro e hee
    exact buildOutput_events st3 env output.dest ins.index (tryEncoder ins output) e
      (by rw [hb]; exact hee)
  rcases rB with e | u
  case error =>
    have htr : (handleAddOutput st env output).2.1 =
        evD ++ (evE ++ (evB ++ ([.startReading] ++ [.replyErr e]))) := by
      unfold handleAddOutput
      simp [hdup, hp, hf, hd, he, hb]
    rw [htr] at hOk
    simp only [List.mem_append, List.mem_singleton] at hOk
    rcases hOk with h2 | h2 | h2 | h2 | h2
    · have h3 := hevD _ h2
      simp [BusEvent.isSubscribe] at h3
    · have h3 := hevE _ h2
      simp [BusEvent.isSubscribe] at h3
    · have h3 := hevB _ h2
      simp [BusEvent.isSubscribe] at h3
    · simp at h2
    · simp at h2
  case ok =>
  have htr : (handleAddOutput st env output).2.1 =
      evD ++ (evE ++ (evB ++ ([.startReading] ++ [.replyOk]))) := by
    unfold handleAddOutput
    simp [hdup, hp, hf, hd, he, hb]
  rcases hnil : evB with _ | ⟨b, bs⟩
  · exact absurd hnil (buildOutput_ok_subscribed st3 env output.dest ins.index
      (tryEncoder ins output) evB (by rw [hb]))
  · refine ⟨evD ++ (evE ++ evB), [.replyOk], ?_, ?_, ?_⟩
    · rw [htr]
      simp [List.append_assoc]
    · exact ⟨b, by simp [hnil], hevB b (by simp [hnil])⟩
    · intro e hee
      simp only [List.mem_singleton] at hee
      subst hee
      rfl

/-- Fresh Bus state holding only an input config (no task started yet). -/
def c2State : BusStateM := { BusStateM.new with inputConfig := some (.file "t.mp4") }

/-- An environment where every external call succeeds and the input exposes
one H.264 video stream. -/
def c2Env : BusEnv :=
  ⟨.ok [⟨0, .video, .h264⟩], .ok (), .ok (), .ok (), .ok (), .ok (), .ok ()⟩

/-- A plain file-remux output. -/
def c2Out : OutputConfigM :=
  { id := "o1", dest := .file "out.mp4", avType := .video, encode := none }

theorem c2_two_phase_start_witness :
    ∃ pre post,
      (handleAddOutput c2State c2Env c2Out).2.1 = pre ++ BusEvent.startReading :: post ∧
      (∃ e ∈ pre, e.isSubscribe = true) ∧
      (∀ e ∈ post, e.isSubscribe = false) :=
  c2_two_phase_start c2State c2Env c2Out (by decide) (by decide) (by decide)

/-- Number of sends on the command's one-shot reply channel in a trace. -/
def countReplies (evs : List BusEvent) : Nat :=
  (evs.filter (fun e => e.isReply)).length

/-- The function `add_input_internal` itself performs no reply send (the `AddInput` arm
sends exactly once, after it returns). -/
theorem addInputInternal_no_reply (st : BusStateM) (env : BusEnv) (input : InputConfigM)
    (options : Option (List (String × String))) :
    ∀ e ∈ (addInputInternal st env input options).2.1, e.isReply = false := by
  intro e he
  unfold addInputInternal at he
  dsimp only at he
  repeat' split at he
  all_goals simp_all [BusEvent.isReply]

/-- A Bus state whose (already running) input exposes only a video stream. -/
def c3State : BusStateM :=
  { inputConfig := some (.file "test.mp4"), inputOptions := none, outputConfig := [],
    inputTask := true, inputStreams := [⟨0, .video, .h264⟩],
    decoderTasks := [], encoderTasks := [] }

/-- An environment where every external call succeeds. -/
def c3Env : BusEnv := ⟨.ok [], .ok (), .ok (), .ok (), .ok (), .ok (), .ok ()⟩

/-- An `AddOutput` asking for the (non-existent) audio stream. -/
def c3AudioOut : OutputConfigM :=
  { id := "aud", dest := .raw, avType := .audio, encode := none }

/-- Claim C3: Every `AddInput` sends exactly one reply on its one-shot channel;
but `AddOutput` sends *no* reply on the "stream not found" path (the `?` at
`bus.rs` line 107 returns from the handler before any `result.send`), so the
claim fails there: with a video-only input and an audio output request the
trace contains zero reply sends. -/
theorem c3_reply_policy :
    (∀ (st : BusStateM) (env : BusEnv) (input : InputConfigM)
        (options : Option (List (String × String))),
      countReplies (handleAddInput st env input options).2.1 = 1) ∧
    countReplies (handleAddOutput c3State c3Env c3AudioOut).2.1 = 0 := by
  constructor
  · intro st env input options
    have h0 := addInputInternal_no_reply st env input options
    unfold handleAddInput countReplies
    rw [List.filter_append, List.length_append,
      List.filter_eq_nil_iff.mpr (fun a ha => by simp [h0 a ha])]
    cases hr : (addInputInternal st env input options).2.2 <;>
      simp [hr, BusEvent.isReply]
  · decide

/-- Bus state that already has an input config. -/
def c7InState : BusStateM := { BusStateM.new with inputConfig := some (.net "rtsp://cam") }

/-- An output config and a Bus state that already contains its id. -/
def c7Out : OutputConfigM :=
  { id := "o1", dest := .encoded, avType := .video, encode := none }

def c7OutState : BusStateM := { BusStateM.new with outputConfig := [("o1", c7Out)] }

def c7Env : BusEnv := ⟨.ok [], .ok (), .ok (), .ok (), .ok (), .ok (), .ok ()⟩

/-- Claim C7: Configuration errors leave the pipeline state unchanged:
`AddInput` with an existing input config replies with the error
"input already exists" and the state after the call is the state before it;
`AddOutput` with an existing output id replies with an error and modifies
neither `output_config` nor any worker map (the whole state is unchanged). -/
theorem c7_config_error_no_state_change :
    (∀ (st : BusStateM) (env : BusEnv) (input : InputConfigM)
        (options : Option (List (String × String))),
      st.inputConfig.isSome = true →
      handleAddInput st env input options =
        (st, [.replyErr "input already exists"], .ok ())) ∧
    (∀ (st : BusStateM) (env : BusEnv) (output : OutputConfigM),
      (st.outputConfig.lookup output.id).isSome = true →
      handleAddOutput st env output =
        (st, [.replyErr "output already exists"], .error "output already exists")) := by
  constructor
  · intro st env input options h
    unfold handleAddInput addInputInternal
    simp [h]
  · intro st env output h
    unfold handleAddOutput
    simp [h]

theorem c7_config_error_no_state_change_witness :
    handleAddInput c7InState c7Env (.net "rtsp://cam") none =
      (c7InState, [.replyErr "input already exists"], .ok ()) ∧
    handleAddOutput c7OutState c7Env c7Out =
      (c7OutState, [.replyErr "output already exists"], .error "output already exists") :=
  ⟨c7_config_error_no_state_change.1 c7InState c7Env (.net "rtsp://cam") none (by decide),
   c7_config_error_no_state_change.2 c7OutState c7Env c7Out (by decide)⟩

/- ------------------------------------------------------------------ -/
/- `src/ffmpeg-bus/src/bsf.rs`: the Annex-B detector; and the AVCC→Annex-B
   converter used by `lite-nvr/src/media/pipe.rs`. -/

/-- Embeds `is_annexb_packet` (`bsf.rs` lines 63–79): a byte slice (bytes as `Nat`)
is Annex-B when — after a `len < 4` guard — it starts with the 4-byte start
code `00 00 00 01` or the 3-byte start code `00 00 01`. -/
def is_annexb_packet (data : List Nat) : Bool :=
  if data.length < 4 then false
  else
    match data with
    | d0 :: d1 :: d2 :: d3 :: _ =>
      if d0 == 0 && d1 == 0 && d2 == 0 && d3 == 1 then true
      else if d0 == 0 && d1 == 0 && d2 == 1 then true
      else false
    | _ => false

/-- The claim's predicate: the slice begins with the Annex-B start code
`00 00 01` or `00 00 00 01` (no length guard). -/
def startsWithAnnexbStartCode (data : List Nat) : Bool :=
  match data with
  | d0 :: d1 :: d2 :: d3 :: _ =>
    (d0 == 0 && d1 == 0 && d2 == 0 && d3 == 1) || (d0 == 0 && d1 == 0 && d2 == 1)
  | d0 :: d1 :: d2 :: _ => d0 == 0 && d1 == 0 && d2 == 1
  | _ => false

/-- Claim C9, counterexample: The three-byte slice `[0, 0, 1]` begins with the
3-byte start code, but `is_annexb_packet` returns `false` for it (the
function rejects every slice shorter than 4 bytes). -/
theorem c9_counterexample :
    startsWithAnnexbStartCode [0, 0, 1] = true ∧ is_annexb_packet [0, 0, 1] = false := by
  decide

/-- Claim C9, amended: `is_annexb_packet` returns `true` iff the slice is at
least 4 bytes long *and* begins with the start code `00 00 01` or
`00 00 00 01`; slices beginning with a length prefix or other bytes, and all
slices shorter than 4 bytes, yield `false`. -/
theorem c9_is_annexb_iff (data : List Nat) :
    is_annexb_packet data = (decide (4 ≤ data.length) && startsWithAnnexbStartCode data) := by
  match data with
  | [] => rfl
  | [d0] => rfl
  | [d0, d1] => rfl
  | [d0, d1, d2] => simp [is_annexb_packet]
  | d0 :: d1 :: d2 :: d3 :: rest =>
    simp only [is_annexb_packet, startsWithAnnexbStartCode, List.length_cons]
    rw [if_neg (by omega), show (decide (4 ≤ rest.length + 1 + 1 + 1 + 1)) = true by simp]
    rcases ha : (d0 == 0 && d1 == 0 && d2 == 0 && d3 == 1) with _ | _ <;>
      rcases hb : (d0 == 0 && d1 == 0 && d2 == 1) with _ | _ <;>
        simp [ha, hb]

/-- Modelled from the spec: `convert_avcc_to_annexb` is referenced from
`lite-nvr/src/media/pipe.rs` as `ffmpeg_bus::bsf::convert_avcc_to_annexb`,
but its definition is not among the provided sources of `bsf.rs`.  Per the
spec (§4.5): it iterates `[4-byte big-endian length | length bytes of NAL]`
tuples, re-emits `[00 00 00 01 | NAL]` for each, and stops on a malformed
length (zero or overrunning the buffer). -/
def convert_avcc_to_annexb (data : List Nat) : List Nat :=
  match data with
  | b0 :: b1 :: b2 :: b3 :: rest =>
    let len := ((b0 * 256 + b1) * 256 + b2) * 256 + b3
    if len = 0 ∨ rest.length < len then []
    else (0 :: 0 :: 0 :: 1 :: rest.take len) ++ convert_avcc_to_annexb (rest.drop len)
  | _ => []
  termination_by data.length
  decreasing_by simp_all; omega

/-- Claim C8: `convert_avcc_to_annexb` on `[0,0,0,4, 0x65,0x88,0x81,0x00]`
returns `[0,0,0,1, 0x65,0x88,0x81,0x00]` (one 4-byte-length NAL tuple turned
into a start-code-prefixed NAL). -/
theorem c8_convert_avcc_example :
    convert_avcc_to_annexb [0, 0, 0, 4, 0x65, 0x88, 0x81, 0x00] =
      [0, 0, 0, 1, 0x65, 0x88, 0x81, 0x00] := by
  simp [convert_avcc_to_annexb]
